import Mathlib

/-!
# Verification of the smellycoin chain-consistency core

Shallow embedding of the Rust sources of the smellycoin repository
(consensus, core/utxo, mining/stratum crates) together with proofs that
settle the frozen claims C1..C10 about the natural-language specification.

Modelling conventions:
* Machine integers (`u8`, `u32`, `u64`) are `Nat` with explicit `% 2^w`
  where overflow can occur (Rust release semantics: wrapping arithmetic).
  A shift whose amount is at least the bit width is modelled as a panic
  (Rust debug semantics; release masks the amount — noted where relevant).
* Byte buffers (`[u8; N]`, `Vec<u8>`, slices) are `List Nat`.
* A Rust operation that can panic (out-of-bounds slice, division by zero)
  is modelled in the `Option` monad: `none` is a panic.
* `Keccak256` is kept abstract: the functions that hash are parameterised
  by a function `keccak : List Nat → List Nat`.  Every theorem below either
  holds for all such functions or instantiates a concrete one, so nothing
  depends on properties of the real Keccak-256.
-/

namespace Smelly

deriving instance DecidableEq for Except

/-- 32-byte hash value (`pub type Hash = [u8; 32]` in core/src/lib.rs),
modelled as a byte list. -/
abbrev Hash := List Nat

/-! ## Byte-buffer primitives (Rust slices, byteorder reads/writes) -/

/-- Rust slice `buf[s..e]`: panics (`none`) when `s > e` or `e > buf.len()`. -/
def readRange (buf : List Nat) (s e : Nat) : Option (List Nat) :=
  if s ≤ e ∧ e ≤ buf.length then some ((buf.drop s).take (e - s)) else none

/-- Rust `buf[s..e].copy_from_slice(&src)`: panics (`none`) when the range is
out of bounds or when `src` does not have length `e - s`. -/
def writeRange (buf : List Nat) (s e : Nat) (src : List Nat) : Option (List Nat) :=
  if s ≤ e ∧ e ≤ buf.length ∧ src.length = e - s then
    some (buf.take s ++ src ++ buf.drop e)
  else none

/-- Little-endian byte decoding of a byte list. -/
def leVal (l : List Nat) : Nat := l.foldr (fun b acc => b + 256 * acc) 0

/-- `byteorder::LittleEndian::read_u32(&buf[s..s+4])` (with the panicking
slice operation included). -/
def readU32LE (buf : List Nat) (s : Nat) : Option Nat :=
  (readRange buf s (s + 4)).map leVal

/-- The four little-endian bytes of a `u32` value. -/
def u32LEBytes (v : Nat) : List Nat :=
  [v % 256, v / 256 % 256, v / 256 ^ 2 % 256, v / 256 ^ 3 % 256]

/-- The eight little-endian bytes of a `u64` value. -/
def u64LEBytes (v : Nat) : List Nat :=
  [v % 256, v / 256 % 256, v / 256 ^ 2 % 256, v / 256 ^ 3 % 256,
   v / 256 ^ 4 % 256, v / 256 ^ 5 % 256, v / 256 ^ 6 % 256, v / 256 ^ 7 % 256]

/-- The four big-endian bytes of a `u32` (Rust `u32::to_be_bytes`). -/
def u32BEBytes (v : Nat) : List Nat :=
  [v / 256 ^ 3 % 256, v / 256 ^ 2 % 256, v / 256 % 256, v % 256]

/-- Big-endian value of a byte list (the "interpreted as a 256-bit
big-endian unsigned integer" reading used by the specification). -/
def beVal : List Nat → Nat
  | [] => 0
  | a :: as => a * 256 ^ as.length + beVal as

/-! ## Core data model (core/src/block.rs, core/src/transaction.rs)

The crates disagree about the header: `core/src/block.rs` declares
`BlockHeader` without a `height` field, while `consensus/src/lib.rs`
(`validate_pow`, `validate_block`) and `mining/src/lib.rs` read and build
`header.height`.  The embedding carries the field that the consensus and
mining code use. -/

structure BlockHeader where
  version : Nat
  prev_block_hash : Hash
  merkle_root : Hash
  timestamp : Nat
  bits : Nat
  nonce : Nat
  height : Nat
  deriving Repr, DecidableEq

/-- `TransactionInput` of core/src/transaction.rs. -/
structure TransactionInput where
  prev_txid : Hash
  prev_vout : Nat
  script_sig : List Nat
  sequence : Nat
  deriving Repr, DecidableEq, Inhabited

/-- `TransactionOutput` of core/src/transaction.rs. -/
structure TransactionOutput where
  value : Nat
  script_pubkey : List Nat
  deriving Repr, DecidableEq

/-- `Transaction` of core/src/transaction.rs (the variant re-exported by the
core crate and used by the UTXO code; it carries its `txid`). -/
structure Transaction where
  version : Nat
  inputs : List TransactionInput
  outputs : List TransactionOutput
  lock_time : Nat
  txid : Hash
  deriving Repr, DecidableEq

/-- The all-zero 32-byte hash. -/
def zeroHash : Hash := List.replicate 32 0

/-- `TransactionInput::is_coinbase` (core/src/transaction.rs line 110). -/
def TransactionInput.is_coinbase (i : TransactionInput) : Bool :=
  i.prev_txid = zeroHash ∧ i.prev_vout = 0xffffffff

/-- `Transaction::is_coinbase` (core/src/transaction.rs line 270). -/
def Transaction.is_coinbase (tx : Transaction) : Bool :=
  tx.inputs.length = 1 ∧ (tx.inputs.headI).is_coinbase

/-- `Transaction::hash` (core/src/transaction.rs line 352): returns the
stored `txid`. -/
def Transaction.hash (tx : Transaction) : Hash := tx.txid

/-- `Block` of core/src/block.rs: header, transactions and an optional
height (`#[serde(skip)] pub height: Option<u64>`). -/
structure Block where
  header : BlockHeader
  transactions : List Transaction
  height : Option Nat
  deriving Repr, DecidableEq

/-! ## Consensus parameters and block subsidy (consensus/src/lib.rs) -/

/-- `ConsensusParams` (consensus/src/lib.rs lines 24-44); the `network` tag
and the nested `KawpowParams` play no role in the claims settled here and
are dropped from the record. -/
structure ConsensusParams where
  target_block_time : Nat
  difficulty_adjustment_interval : Nat
  max_block_size : Nat
  min_difficulty_bits : Nat
  initial_difficulty_bits : Nat
  subsidy_halving_interval : Nat
  initial_block_subsidy : Nat
  deriving Repr, DecidableEq

/-- `ConsensusParams::mainnet` (consensus/src/lib.rs line 48). -/
def ConsensusParams.mainnet : ConsensusParams :=
  { target_block_time := 15
    difficulty_adjustment_interval := 2016
    max_block_size := 2000000
    min_difficulty_bits := 0x1e00ffff
    initial_difficulty_bits := 0x1e00ffff
    subsidy_halving_interval := 2100000
    initial_block_subsidy := 50000000000 }

/-- `ConsensusParams::testnet` (consensus/src/lib.rs line 63). -/
def ConsensusParams.testnet : ConsensusParams :=
  { target_block_time := 15
    difficulty_adjustment_interval := 2016
    max_block_size := 2000000
    min_difficulty_bits := 0x1e00ffff
    initial_difficulty_bits := 0x1e00ffff
    subsidy_halving_interval := 2100000
    initial_block_subsidy := 50000000000 }

/-- `ConsensusParams::regtest` (consensus/src/lib.rs line 78). -/
def ConsensusParams.regtest : ConsensusParams :=
  { target_block_time := 15
    difficulty_adjustment_interval := 144
    max_block_size := 2000000
    min_difficulty_bits := 0x207fffff
    initial_difficulty_bits := 0x207fffff
    subsidy_halving_interval := 150
    initial_block_subsidy := 50000000000 }

/-- `ConsensusParams::get_block_subsidy` (consensus/src/lib.rs lines 93-103):
`halvings = height / subsidy_halving_interval`; 0 after 64 halvings, else
`initial_block_subsidy >> halvings`.  Division by a zero interval panics in
Rust, hence the `Option`. -/
def ConsensusParams.get_block_subsidy (p : ConsensusParams) (height : Nat) : Option Nat :=
  if p.subsidy_halving_interval = 0 then none
  else
    let halvings := height / p.subsidy_halving_interval
    if halvings ≥ 64 then some 0
    else some (p.initial_block_subsidy >>> halvings)

/-- `MiningJobManager::calculate_block_reward` (mining/src/lib.rs lines
235-246): the same formula with the constants hard-wired
(`initial_subsidy = 50_000_000_000`, `halving_interval = 2_100_000`). -/
def calculate_block_reward (height : Nat) : Nat :=
  let initial_subsidy := 50000000000
  let halving_interval := 2100000
  let halvings := height / halving_interval
  if halvings ≥ 64 then 0
  else initial_subsidy >>> halvings

/-! ## Difficulty codec of consensus/src/difficulty.rs (claim C8)

`get_difficulty_for_bits` as written declares `mantissa: u32` (from
`bits & 0x00ffffff`) and shifts it by `8 * (exponent - 3)` while returning
`u64`; the shift is a `u32` shift.  A `u32` shift by ≥ 32 is an overflow
panic in Rust (in release builds the amount is masked; the round-trip facts
proved below use shift amounts below 32, where both semantics agree). -/

/-- `get_difficulty_for_bits` (consensus/src/difficulty.rs lines 70-79). -/
def get_difficulty_for_bits (bits : Nat) : Option Nat :=
  let exponent := (bits >>> 24) &&& 0xff
  let mantissa := bits &&& 0x00ffffff
  if exponent ≤ 3 then
    some (mantissa >>> (8 * (3 - exponent)))
  else
    let sh := 8 * (exponent - 3)
    if sh < 32 then some ((mantissa <<< sh) % 2 ^ 32) else none

/-- The `while size > 0x00ffffff { size >>= 8; exponent += 1 }` loop of
`get_bits_for_difficulty`. -/
def compactExponent (size : Nat) : Nat :=
  if _h : size > 0x00ffffff then 1 + compactExponent (size >>> 8) else 0
decreasing_by
  simp only [Nat.shiftRight_eq_div_pow]
  exact Nat.div_lt_self (by omega) (by norm_num)

/-- `get_bits_for_difficulty` (consensus/src/difficulty.rs lines 82-105).
`difficulty` is `u64`; the mantissa extraction casts to `u32` (`% 2^32`);
a `u64` shift by ≥ 64 is a panic. -/
def get_bits_for_difficulty (difficulty : Nat) : Option Nat :=
  let exponent := compactExponent difficulty
  let mantissa? : Option Nat :=
    if exponent ≤ 3 then
      some ((difficulty <<< (8 * (3 - exponent))) % 2 ^ 32)
    else
      let sh := 8 * (exponent - 3)
      if sh < 64 then some ((difficulty >>> sh) % 2 ^ 32) else none
  mantissa?.map (fun mantissa =>
    (mantissa &&& 0x00ffffff) ||| (((exponent + 3) <<< 24) % 2 ^ 32))

/-! ## Target codec of the inline `difficulty` module (consensus/src/lib.rs,
lines 243-303) — the functions `validate_pow` uses (claim C5). -/

/-- `difficulty::bits_to_target` (consensus/src/lib.rs lines 247-269).
For `exponent ≥ 3` the mantissa bytes are placed at `32 - exponent`; the
`usize` subtraction panics (`none`) when `exponent > 32`.  For
`exponent < 3` the mantissa is written at the end and shifted. -/
def bits_to_target (bits : Nat) : Option (List Nat) :=
  let target := List.replicate 32 0
  let exponent := (bits >>> 24) &&& 0xff
  let mantissa := bits &&& 0x00ffffff
  let mantissa_bytes := u32BEBytes mantissa
  if exponent ≥ 3 then
    if exponent ≤ 32 then
      writeRange target (32 - exponent) (32 - exponent + 3) (mantissa_bytes.drop 1)
    else none
  else
    (writeRange target 29 32 (mantissa_bytes.drop 1)).map (fun t1 =>
      ((List.range 29).reverse).foldl
        (fun t i => (t.set (i + 3 - exponent) (t.getD i 0)).set i 0) t1)

/-- `difficulty::hash_to_u256` (consensus/src/lib.rs lines 272-279):
`result[i] = hash[31 - i]` — the hash bytes are REVERSED before the
comparison with the target. -/
def hash_to_u256 (hash : List Nat) : List Nat :=
  (List.range 32).map (fun i => hash.getD (31 - i) 0)

/-- Rust's derived lexicographic `<=` on `[u8; 32]` (element-wise `Ord`),
used by `validate_pow` as `hash_value <= target`. -/
def bytesLe : List Nat → List Nat → Bool
  | [], [] => true
  | [], _ :: _ => true
  | _ :: _, [] => false
  | a :: as, b :: bs => if a < b then true else if b < a then false else bytesLe as bs

/-- The proof-of-work acceptance comparison of `ConsensusEngine::validate_pow`
(consensus/src/lib.rs lines 180-186): `hash_to_u256(hash) <= target`. -/
def hash_meets_target (hash target : List Nat) : Bool :=
  bytesLe (hash_to_u256 hash) target

/-! ## Association-list model of `HashMap<(Hash, u32), UTXOEntry>` -/

/-- Outpoint key `(txid, vout)`. -/
abbrev Outpoint := Hash × Nat

/-- Map lookup. -/
def mapLookup {α : Type} : List (Outpoint × α) → Outpoint → Option α
  | [], _ => none
  | (k2, v) :: rest, k => if k2 = k then some v else mapLookup rest k

/-- `HashMap::remove`: drop the entry with the given key. -/
def mapErase {α : Type} : List (Outpoint × α) → Outpoint → List (Outpoint × α)
  | [], _ => []
  | (k2, v) :: rest, k =>
      if k2 = k then mapErase rest k else (k2, v) :: mapErase rest k

/-- `HashMap::insert`: overwrite any existing entry with the given key. -/
def mapInsert {α : Type} (m : List (Outpoint × α)) (k : Outpoint) (v : α) :
    List (Outpoint × α) :=
  (k, v) :: mapErase m k

/-! ## UTXO engine of `mod utxo_impl` in core/src/lib.rs (claim C2) -/

namespace utxo_impl

/-- `UTXOEntry` of `mod utxo_impl` (core/src/lib.rs lines 375-388). -/
structure UTXOEntry where
  tx_hash : Hash
  output_index : Nat
  value : Nat
  script_pubkey : List Nat
  height : Nat
  is_coinbase : Bool
  deriving Repr, DecidableEq

/-- UTXO set state: the backing `HashMap<(Hash, u32), UTXOEntry>`. -/
abbrev UTXOMap := List (Outpoint × UTXOEntry)

/-- `UTXOError` of `mod utxo_impl` (string payloads elided). -/
inductive UTXOError where
  | inputNotFound
  | utxoAlreadyExists
  | storage
  deriving Repr, DecidableEq

/-- The input-removal loop of `apply_block`: check `contains`, fail with
`InputNotFound`, else `remove`.  An error carries the map as mutated so far
(the Rust method mutates `self` in place). -/
def removeInputs (m : UTXOMap) : List TransactionInput → Except (UTXOError × UTXOMap) UTXOMap
  | [] => .ok m
  | input :: rest =>
      if (mapLookup m (input.prev_txid, input.prev_vout)).isSome then
        removeInputs (mapErase m (input.prev_txid, input.prev_vout)) rest
      else
        .error (.inputNotFound, m)

/-- The output-insertion loop of `apply_block`: `self.add(entry)` for every
output (plain `HashMap::insert`, it cannot fail in this variant). -/
def addOutputs (tx_hash : Hash) (height : Nat) (is_coinbase : Bool) :
    UTXOMap → Nat → List TransactionOutput → UTXOMap
  | m, _, [] => m
  | m, idx, o :: rest =>
      addOutputs tx_hash height is_coinbase
        (mapInsert m (tx_hash, idx)
          { tx_hash := tx_hash, output_index := idx, value := o.value,
            script_pubkey := o.script_pubkey, height := height,
            is_coinbase := is_coinbase })
        (idx + 1) rest

/-- The per-transaction loop of `apply_block`; `idx` is the transaction
index (`is_coinbase = (idx == 0)`). -/
def applyTxs (height : Nat) : UTXOMap → List Transaction → Nat →
    Except (UTXOError × UTXOMap) UTXOMap
  | m, [], _ => .ok m
  | m, tx :: rest, idx => do
      let m1 ← if idx = 0 then pure m else removeInputs m tx.inputs
      applyTxs height (addOutputs tx.hash height (idx = 0) m1 0 tx.outputs) rest (idx + 1)

/-- `UTXOSet::apply_block` (core/src/lib.rs lines 436-466); the height
written into new entries is `block.height.unwrap_or(0)`. -/
def apply_block (m : UTXOMap) (block : Block) : Except (UTXOError × UTXOMap) UTXOMap :=
  applyTxs (block.height.getD 0) m block.transactions 0

/-- `UTXOSet::revert_block` (core/src/lib.rs lines 469-483): removes every
output created by the block; the re-insertion of spent inputs is an empty
placeholder in the source ("requires access to the previous state"), so
nothing is added back and the call always succeeds. -/
def revert_block (m : UTXOMap) (block : Block) : UTXOMap :=
  block.transactions.foldl
    (fun m tx =>
      (List.range tx.outputs.length).foldl (fun m i => mapErase m (tx.hash, i)) m)
    m

end utxo_impl

/-! ## UTXO engine of core/src/utxo.rs (claim C3) -/

namespace utxo_rs

/-- `UTXOEntry` of core/src/utxo.rs (lines 36-54). -/
structure UTXOEntry where
  txid : Hash
  vout : Nat
  value : Nat
  script_pubkey : List Nat
  height : Nat
  is_coinbase : Bool
  deriving Repr, DecidableEq

/-- UTXO set state: the backing `HashMap<(Hash, u32), UTXOEntry>`. -/
abbrev UTXOMap := List (Outpoint × UTXOEntry)

/-- `UTXOError` of core/src/utxo.rs (string payloads elided). -/
inductive UTXOError where
  | notFound
  | doubleSpend
  | invalidTransaction
  | storage
  deriving Repr, DecidableEq

/-- `UTXOSet::add` (core/src/utxo.rs lines 92-104): fails with `DoubleSpend`
when the key is already present. -/
def add (m : UTXOMap) (e : UTXOEntry) : Except UTXOError UTXOMap :=
  if (mapLookup m (e.txid, e.vout)).isSome then .error .doubleSpend
  else .ok (mapInsert m (e.txid, e.vout) e)

/-- `UTXOSet::remove` (core/src/utxo.rs lines 107-118): fails with
`NotFound` when the key is absent. -/
def remove (m : UTXOMap) (k : Outpoint) : Except UTXOError (UTXOEntry × UTXOMap) :=
  match mapLookup m k with
  | some e => .ok (e, mapErase m k)
  | none => .error .notFound

/-- Input loop of `process_transaction`: `self.remove(...)?` for each input.
An error carries the map as mutated so far. -/
def spendInputs (m : UTXOMap) : List TransactionInput → Except (UTXOError × UTXOMap) UTXOMap
  | [] => .ok m
  | input :: rest =>
      match remove m (input.prev_txid, input.prev_vout) with
      | .ok (_, m1) => spendInputs m1 rest
      | .error e => .error (e, m)

/-- Output loop of `process_transaction`: `self.add(entry)?` for each output.
An error carries the map as mutated so far. -/
def insertOutputs (txid : Hash) (height : Nat) (is_coinbase : Bool) :
    UTXOMap → Nat → List TransactionOutput → Except (UTXOError × UTXOMap) UTXOMap
  | m, _, [] => .ok m
  | m, vout, o :: rest =>
      match add m { txid := txid, vout := vout, value := o.value,
                    script_pubkey := o.script_pubkey, height := height,
                    is_coinbase := is_coinbase } with
      | .ok m1 => insertOutputs txid height is_coinbase m1 (vout + 1) rest
      | .error e => .error (e, m)

/-- `UTXOSet::process_transaction` (core/src/utxo.rs lines 121-149): remove
all inputs (unless coinbase), then add all outputs.  The method mutates the
set in place, so an error leaves the partial mutations in the returned map. -/
def process_transaction (m : UTXOMap) (tx : Transaction) (height : Nat)
    (is_coinbase : Bool) : Except (UTXOError × UTXOMap) UTXOMap := do
  let m1 ← if is_coinbase then pure m else spendInputs m tx.inputs
  insertOutputs tx.txid height is_coinbase m1 0 tx.outputs

/-- The loop over non-coinbase transactions in `process_block`. -/
def processRest (height : Nat) : UTXOMap → List Transaction →
    Except (UTXOError × UTXOMap) UTXOMap
  | m, [] => .ok m
  | m, tx :: rest => do
      let m1 ← process_transaction m tx height false
      processRest height m1 rest

/-- `UTXOSet::process_block` (core/src/utxo.rs lines 152-168): the first
transaction is processed as coinbase, the rest in order.  No rollback of any
kind is performed on failure. -/
def process_block (m : UTXOMap) (txs : List Transaction) (height : Nat) :
    Except (UTXOError × UTXOMap) UTXOMap := do
  let m1 ← match txs with
           | [] => pure m
           | tx0 :: _ => process_transaction m tx0 height true
  processRest height m1 (txs.drop 1)

/-- `UTXOSet::revert_transaction` (core/src/utxo.rs lines 171-190): removes
every output of the transaction; the "add back all inputs" branch is an
empty placeholder in the source. -/
def revert_transaction (m : UTXOMap) (tx : Transaction) :
    Except (UTXOError × UTXOMap) UTXOMap :=
  go m 0 tx.outputs.length
where
  go (m : UTXOMap) (vout n : Nat) : Except (UTXOError × UTXOMap) UTXOMap :=
    match n with
    | 0 => .ok m
    | n + 1 =>
        match remove m (tx.txid, vout) with
        | .ok (_, m1) => go m1 (vout + 1) n
        | .error e => .error (e, m)

end utxo_rs

/-! ## KAWPOW engine of consensus/src/kawpow.rs (claims C1, C4)

`KawpowContext::get_light_cache` never fails (`generate_light_cache`
unconditionally returns `Ok`), so the light cache obtained for the epoch is
passed as an explicit `cache` argument; every theorem below quantifies over
it (or instantiates it), so no property of the generated cache is assumed. -/

/-- `KawpowParams` of consensus/src/kawpow.rs (lines 48-69); the
`cache_dir : PathBuf` field is irrelevant to the computations and dropped. -/
structure KawpowParams where
  light_cache_size : Nat
  full_dataset_size : Nat
  dataset_accesses : Nat
  epoch_length : Nat
  mix_hash_size : Nat
  hash_output_size : Nat
  deriving Repr, DecidableEq

/-- `KawpowParams::mainnet` (consensus/src/kawpow.rs line 85). -/
def KawpowParams.mainnet : KawpowParams :=
  { light_cache_size := 16 * 1024 * 1024
    full_dataset_size := 2 * 1024 * 1024 * 1024
    dataset_accesses := 64
    epoch_length := 7500
    mix_hash_size := 32
    hash_output_size := 32 }

/-- `KawpowParams::regtest` (consensus/src/kawpow.rs line 111). -/
def KawpowParams.regtest : KawpowParams :=
  { light_cache_size := 8 * 1024 * 1024
    full_dataset_size := 128 * 1024 * 1024
    dataset_accesses := 32
    epoch_length := 100
    mix_hash_size := 32
    hash_output_size := 32 }

/-- `KawpowError` of consensus/src/kawpow.rs (payload strings elided). -/
inductive KawpowError where
  | invalidParameters
  | verificationError
  | io
  | cacheGeneration
  | dagGeneration
  deriving Repr, DecidableEq

/-- `fnv_hash` (consensus/src/kawpow.rs lines 370-376): FNV-1a step with
wrapping `u32` multiplication. -/
def fnv_hash (v1 v2 : Nat) : Nat :=
  ((v1 ^^^ v2) * 0x01000193) % 2 ^ 32

/-- `fnv_hash_merge` (consensus/src/kawpow.rs lines 380-388): for
`i ∈ [0, 32)`, read `u32`s at `out[(offset+i)%32..]` and `input[i..]`, write
the FNV hash back.  Both reads go through the panicking slice model: the
read of `out[idx..idx+4]` is out of bounds on a 32-byte `out` once
`idx > 28`, and the read of `input[i..i+4]` is out of bounds on a 32-byte
`input` once `i > 28`. -/
def fnv_hash_merge (out : List Nat) (input : List Nat) (offset : Nat) :
    Option (List Nat) :=
  (List.range 32).foldlM (fun acc i => do
    let idx := (offset + i) % 32
    let v1 ← readU32LE acc idx
    let v2 ← readU32LE input i
    writeRange acc idx (idx + 4) (u32LEBytes (fnv_hash v1 v2))) out

/-- `KawpowContext::calculate_dataset_item` (consensus/src/kawpow.rs lines
242-268). -/
def calculate_dataset_item (keccak : List Nat → List Nat) (cache : List Nat)
    (index : Nat) : Option (List Nat) :=
  let num_cache_items := cache.length / 64
  if num_cache_items = 0 then none  -- `index % num_cache_items` panics on 0
  else do
    let r := index % num_cache_items
    let mix := List.replicate 64 0
    let slice ← readRange cache (r * 64) (r * 64 + 32)
    let mix ← writeRange mix 0 32 slice
    let mix ← writeRange mix 0 4 (u32LEBytes (index % 2 ^ 32))
    let head ← readRange mix 0 32
    let mix ← writeRange mix 0 32 (keccak head)
    let mix ← (List.range 64).foldlM (fun mix i => do
        let v ← readU32LE mix (i % 32)
        if num_cache_items % 2 ^ 32 = 0 then none
        else do
          let parent_index :=
            fnv_hash ((index % 2 ^ 32) ^^^ (i % 2 ^ 32)) v % (num_cache_items % 2 ^ 32)
          let pslice ← readRange cache (parent_index * 64) (parent_index * 64 + 32)
          fnv_hash_merge mix pslice (i % 32)) mix
    writeRange mix 0 32 (keccak mix)

/-- The dataset-access loop shared by `compute_hash` and `verify_kawpow`
(consensus/src/kawpow.rs lines 299-303 and 346-350): `mix` is the 32-byte
mix hash; the `u32` read at `mix[i % 32 .. i % 32 + 4]` is out of bounds
once `i % 32 > 28`. -/
def datasetAccessLoop (keccak : List Nat → List Nat) (cache : List Nat)
    (accesses dataset_items : Nat) (mix0 : List Nat) : Option (List Nat) :=
  (List.range accesses).foldlM (fun mix i => do
    let v ← readU32LE mix (i % 32)
    if dataset_items % 2 ^ 32 = 0 then none  -- `% (full_dataset_size/64) as u32`
    else do
      let index := fnv_hash (i % 2 ^ 32) v % (dataset_items % 2 ^ 32)
      let item ← calculate_dataset_item keccak cache index
      fnv_hash_merge mix item 0) mix0

/-- `KawpowContext::compute_hash` (consensus/src/kawpow.rs lines 271-316).
The 80-byte header buffer receives the nonce at `header_bytes[76..84]` — a
slice whose end exceeds the buffer. -/
def compute_hash (keccak : List Nat → List Nat) (cache : List Nat)
    (params : KawpowParams) (header : BlockHeader) (nonce height : Nat) :
    Option (List Nat × List Nat) :=
  if params.epoch_length = 0 then none  -- `get_epoch`: `height / epoch_length`
  else do
    let hb ← writeRange (List.replicate 80 0) 0 4 (u32LEBytes (header.version % 2 ^ 32))
    let hb ← writeRange hb 4 36 header.prev_block_hash
    let hb ← writeRange hb 36 68 header.merkle_root
    let hb ← writeRange hb 68 72 (u32LEBytes (header.timestamp % 2 ^ 32))
    let hb ← writeRange hb 72 76 (u32LEBytes (header.bits % 2 ^ 32))
    let hb ← writeRange hb 76 84 (u64LEBytes (nonce % 2 ^ 64))
    let header_hash := keccak hb
    let mix ← writeRange (List.replicate 32 0) 0 32 header_hash
    let mix ← datasetAccessLoop keccak cache params.dataset_accesses
      (params.full_dataset_size / 64) mix
    let final_hash := keccak mix
    let result_mix ← readRange mix 0 32
    let result_hash ← readRange final_hash 0 32
    pure (result_mix, result_hash)

/-- `verify_kawpow` (consensus/src/kawpow.rs lines 320-366).  The outer
`Option` is the panic model; the inner `Except` is the function's `Result`.
Its header preimage is an 80-byte buffer holding only `prev_hash` at
`[4..36]` and the nonce at the (out-of-bounds) range `[76..84]`. -/
def verify_kawpow (keccak : List Nat → List Nat) (cache : List Nat)
    (params : KawpowParams) (prev_hash : Hash) (height nonce : Nat)
    (mix_hash : Hash) : Option (Except KawpowError (List Nat)) :=
  if params.epoch_length = 0 then none
  else do
    let hb ← writeRange (List.replicate 80 0) 4 36 prev_hash
    let hb ← writeRange hb 76 84 (u64LEBytes (nonce % 2 ^ 64))
    let header_hash := keccak hb
    let computed ← writeRange (List.replicate 32 0) 0 32 header_hash
    let computed ← datasetAccessLoop keccak cache params.dataset_accesses
      (params.full_dataset_size / 64) computed
    let cmp ← readRange computed 0 32
    if mix_hash ≠ cmp then pure (.error .verificationError)
    else do
      let result ← readRange (keccak computed) 0 32
      pure (.ok result)

/-! ## Consensus block validation (consensus/src/lib.rs, claim C6) -/

/-- `ConsensusError` of consensus/src/lib.rs (payloads elided). -/
inductive ConsensusError where
  | invalidProofOfWork
  | invalidDifficulty
  | invalidCoinbase
  | noTransactions
  | blockTooLarge
  | kawpowError
  deriving Repr, DecidableEq

/-- The coinbase output summation of `validate_block`
(`coinbase_output_value += output.value`): wrapping `u64` addition. -/
def sumOutputsWrapped (outputs : List TransactionOutput) : Nat :=
  outputs.foldl (fun acc o => (acc + o.value) % 2 ^ 64) 0

/-- Exact (mathematical) sum of output values, for comparison. -/
def sumOutputsExact (outputs : List TransactionOutput) : Nat :=
  outputs.foldl (fun acc o => acc + o.value) 0

/-- `ConsensusEngine::validate_difficulty` (consensus/src/lib.rs lines
194-212).  Outer `none` models the `%`-by-zero panic when
`difficulty_adjustment_interval = 0`. -/
def validate_difficulty (params : ConsensusParams) (header prev_header : BlockHeader) :
    Option (Except ConsensusError Unit) :=
  if params.difficulty_adjustment_interval = 0 then none
  else if header.height % params.difficulty_adjustment_interval = 0 then
    if header.bits < params.min_difficulty_bits then
      some (.error .invalidDifficulty)
    else some (.ok ())
  else if header.bits ≠ prev_header.bits then
    some (.error .invalidDifficulty)
  else some (.ok ())

/-- The coinbase section of `ConsensusEngine::validate_block`
(consensus/src/lib.rs lines 140-160): the first transaction must be
coinbase; its output values are summed with wrapping `u64` addition
(`coinbase_output_value += output.value`); `total_fees` is the constant 0
(the source comment reads "In a real implementation, calculate from
transactions"); the sum must not exceed `subsidy + total_fees`. -/
def checkCoinbase (params : ConsensusParams) (height : Nat)
    (txs : List Transaction) : Option (Except ConsensusError Unit) :=
  match txs with
  | [] => some (.error .noTransactions)
  | coinbase :: _ =>
    if ¬ coinbase.is_coinbase then some (.error .invalidCoinbase)
    else do
      let subsidy ← params.get_block_subsidy height
      let total_fees := 0
      let coinbase_output_value := sumOutputsWrapped coinbase.outputs
      if coinbase_output_value > subsidy + total_fees then
        some (.error .invalidCoinbase)
      else some (.ok ())

/-- `ConsensusEngine::validate_block` (consensus/src/lib.rs lines 127-166).
The `consensus` crate declares the `kawpow` module twice (a file module and
an inline module with incompatible `verify_kawpow` signatures), so the
proof-of-work step `validate_pow` is passed in as `powCheck`; every claim
settled against this definition either quantifies over `powCheck` or
instantiates it.  The remaining checks are embedded directly: difficulty
(when a previous header is supplied) and the coinbase checks of
`checkCoinbase`.  Outer `none` models a panic. -/
def validate_block (powCheck : BlockHeader → Option (Except ConsensusError Unit))
    (params : ConsensusParams) (block : Block) (prev_header : Option BlockHeader) :
    Option (Except ConsensusError Unit) := do
  let powRes ← powCheck block.header
  match powRes with
  | .error e => pure (.error e)
  | .ok () => do
    let diffRes ← match prev_header with
                  | some prev => validate_difficulty params block.header prev
                  | none => pure (.ok ())
    match diffRes with
    | .error e => pure (.error e)
    | .ok () => checkCoinbase params block.header.height block.transactions

/-! ## Mining job manager and Stratum sessions (mining/src/lib.rs,
mining/src/stratum.rs — claims C9, C10)

`mining/src/stratum.rs` contains two overlapping `impl StratumSession`
blocks, each with its own `handle_submit` (lines 304-374 and 552-611).
Both are embedded: `handle_submit_v1` is the first, `handle_submit` the
second (the one the claims cite by line range). -/

/-- `MiningJob` (mining/src/lib.rs lines 62-92). -/
structure MiningJob where
  id : String
  prev_hash : Hash
  coinbase_tx : List Nat
  merkle_branches : List Hash
  version : Nat
  bits : Nat
  time : Nat
  clean_job : Bool
  height : Nat
  target : List Nat
  deriving Repr, DecidableEq

/-- `WorkSubmission` (mining/src/lib.rs lines 96-111). -/
structure WorkSubmission where
  worker_name : String
  job_id : String
  nonce : Nat
  extra_nonce2 : List Nat
  time : Nat
  deriving Repr, DecidableEq

/-- `MiningError` (mining/src/lib.rs lines 38-58, payloads elided). -/
inductive MiningError where
  | algorithm
  | stratum
  | io
  | invalidParameters
  | timeout
  deriving Repr, DecidableEq

/-- The job map held by `MiningJobManager` (`HashMap<String, MiningJob>`). -/
abbrev JobMap := List (String × MiningJob)

/-- Lookup in the job map. -/
def jobLookup : JobMap → String → Option MiningJob
  | [], _ => none
  | (k, v) :: rest, id => if k = id then some v else jobLookup rest id

/-- Dropping a key from the job map. -/
def jobErase : JobMap → String → JobMap
  | [], _ => []
  | (k, v) :: rest, id =>
      if k = id then jobErase rest id else (k, v) :: jobErase rest id

/-- `HashMap::insert` for the job map (overwrite). -/
def jobInsert (m : JobMap) (id : String) (j : MiningJob) : JobMap :=
  (id, j) :: jobErase m id

/-- The extranonce splice of `process_submission` (mining/src/lib.rs lines
360-369): write each byte of `extra_nonce2` at position `42 + i`, skipping
positions past the end of the buffer (`List.set` is a no-op out of range,
exactly the `if script_pos + i < coinbase_tx.len()` guard). -/
def spliceAt : List Nat → Nat → List Nat → List Nat
  | buf, _, [] => buf
  | buf, pos, b :: rest => spliceAt (buf.set pos b) (pos + 1) rest

/-- `MiningJobManager::process_submission` (mining/src/lib.rs lines
347-446).  The source's `verify_kawpow(&self.kawpow_context, &header,
job.height, &job.target)` call matches neither `verify_kawpow` definition in
the consensus crate (wrong arity), so the verification step is passed in as
`verify` — every theorem quantifies over it or instantiates it.  The
`new_block_callback` invocation on a valid share does not touch the job map
or the session; its `Block` argument is built from the three coinbase reads
modelled below (whose slice panics are the observable part) and is not
otherwise observable here. -/
def process_submission (keccak : List Nat → List Nat)
    (verify : BlockHeader → Nat → List Nat → Except MiningError Bool)
    (jobs : JobMap) (submission : WorkSubmission) :
    Option (Except MiningError Bool) :=
  match jobLookup jobs submission.job_id with
  | none => some (.error .invalidParameters)  -- "Unknown job ID"
  | some job => do
    let coinbase_tx := spliceAt job.coinbase_tx 42 submission.extra_nonce2
    let coinbase_hash ← writeRange (List.replicate 32 0) 0 32 (keccak coinbase_tx)
    let merkle_root ← job.merkle_branches.foldlM
      (fun root branch => writeRange (List.replicate 32 0) 0 32 (keccak (root ++ branch)))
      coinbase_hash
    let header : BlockHeader :=
      { version := job.version, prev_block_hash := job.prev_hash,
        merkle_root := merkle_root, timestamp := submission.time,
        bits := job.bits, nonce := submission.nonce, height := job.height }
    match verify header job.height job.target with
    | .error e => some (.error e)
    | .ok is_valid =>
      if is_valid then do
        let _script ← readRange coinbase_tx 42 74
        let _value_bytes ← readRange coinbase_tx 78 86
        let _pk_script ← readRange coinbase_tx 87 112
        pure (.ok true)
      else
        pure (.ok false)

/-- `SessionState` (mining/src/stratum.rs lines 140-163).  The
`connected_at`/`last_activity` instants (wall-clock) and the `f64`
difficulty are not representable in this embedding and play no role in the
claims; they are dropped from the record. -/
structure SessionState where
  worker_name : String
  worker_password : Option String
  subscription_id : String
  extra_nonce1 : String
  extra_nonce2_size : Nat
  authorized : Bool
  shares_accepted : Nat
  shares_rejected : Nat
  deriving Repr, DecidableEq

/-- `StratumError` (mining/src/stratum.rs lines 26-46, payloads elided). -/
inductive StratumError where
  | json
  | io
  | protocol
  | authentication
  | invalidRequest
  deriving Repr, DecidableEq

/-- A JSON parameter value as the handlers see it: a string or anything
else (`Value::String` vs the other `serde_json::Value` variants). -/
inductive JVal where
  | str (s : String)
  | other
  deriving Repr, DecidableEq

/-- `Value::as_str`. -/
def JVal.asStr : JVal → Option String
  | .str s => some s
  | .other => none

/-- The wire response a handler queues: `result` and `error` fields of the
JSON object (`error` is `[code, message, null]`). -/
structure StratumResponse where
  result : Option Bool
  error : Option (Nat × String)
  deriving Repr, DecidableEq

/-- One hexadecimal digit. -/
def hexDigitVal (c : Char) : Option Nat :=
  let n := c.toNat
  if 48 ≤ n ∧ n ≤ 57 then some (n - 48)
  else if 97 ≤ n ∧ n ≤ 102 then some (n - 87)
  else if 65 ≤ n ∧ n ≤ 70 then some (n - 55)
  else none

/-- `hex::decode`: pairs of hex digits; fails on odd length or a non-hex
character. -/
def hexDecodeChars : List Char → Option (List Nat)
  | [] => some []
  | [_] => none
  | a :: b :: rest => do
      let x ← hexDigitVal a
      let y ← hexDigitVal b
      let r ← hexDecodeChars rest
      pure ((16 * x + y) :: r)

/-- `hex::decode` on a string. -/
def hexDecode (s : String) : Option (List Nat) :=
  hexDecodeChars s.toList

/-- `uN::from_str_radix(s, 16)`: fails on an empty string, a non-hex
character, or a value outside the type's range. -/
def parseHexNat (s : String) (bound : Nat) : Option Nat :=
  if s.isEmpty then none
  else do
    let v ← s.toList.foldlM (fun acc c => do
      let d ← hexDigitVal c
      pure (acc * 16 + d)) 0
    if v < bound then pure v else none

/-- The second `StratumSession::handle_submit` (mining/src/stratum.rs lines
552-611) — the handler the claims cite.  It performs NO authorization
check.  Fewer than five parameters: response error `(21, "Invalid
parameters for submit")`.  A parse failure returns `Err(Protocol)` with no
response and no state change.  Otherwise `process_submission` runs: on
`Ok(valid)` the accepted (resp. rejected) counter is bumped and the
response carries `result = valid`; on `Err` the rejected counter is bumped
and the response is error `(20, "Share validation error")`.  Outer `none`
models a panic inside `process_submission`. -/
def handle_submit (keccak : List Nat → List Nat)
    (verify : BlockHeader → Nat → List Nat → Except MiningError Bool)
    (jobs : JobMap) (s : SessionState) (params : List JVal) :
    Option (Except StratumError (StratumResponse × SessionState)) :=
  if params.length < 5 then
    some (.ok ({ result := none, error := some (21, "Invalid parameters for submit") }, s))
  else
    let worker_name := ((params.getD 0 .other).asStr).getD ""
    let job_id := ((params.getD 1 .other).asStr).getD ""
    let extra_nonce2 := ((params.getD 2 .other).asStr).getD ""
    let time := ((params.getD 3 .other).asStr).getD ""
    let nonce := ((params.getD 4 .other).asStr).getD ""
    match hexDecode extra_nonce2 with
    | none => some (.error .protocol)
    | some extra_nonce2_bytes =>
      match parseHexNat time (2 ^ 32) with
      | none => some (.error .protocol)
      | some time_value =>
        match parseHexNat nonce (2 ^ 64) with
        | none => some (.error .protocol)
        | some nonce_value =>
          let submission : WorkSubmission :=
            { worker_name := worker_name, job_id := job_id,
              nonce := nonce_value, extra_nonce2 := extra_nonce2_bytes,
              time := time_value }
          match process_submission keccak verify jobs submission with
          | none => none
          | some (.ok valid) =>
              let s1 := if valid
                then { s with shares_accepted := s.shares_accepted + 1 }
                else { s with shares_rejected := s.shares_rejected + 1 }
              some (.ok ({ result := some valid, error := none }, s1))
          | some (.error _) =>
              some (.ok ({ result := none, error := some (20, "Share validation error") },
                         { s with shares_rejected := s.shares_rejected + 1 }))

/-- The first `StratumSession::handle_submit` (mining/src/stratum.rs lines
304-374).  An unauthorized session gets `Err(Authentication)` — no wire
response, no state change (error code 25 appears nowhere).  Parameters must
be JSON strings (`Err(Protocol)` otherwise); the `?`-propagated hex/integer
parse failures are modelled as `Err(Protocol)` (the source lacks the `From`
conversions for them).  On `Ok(valid)` counters are updated and the
response is `result = valid` with error `(21, "Share rejected")` when
`valid` is false; on `Err` from `process_submission` the result is `false`
with that same error and no counter update. -/
def handle_submit_v1 (keccak : List Nat → List Nat)
    (verify : BlockHeader → Nat → List Nat → Except MiningError Bool)
    (jobs : JobMap) (s : SessionState) (params : List JVal) :
    Option (Except StratumError (StratumResponse × SessionState)) :=
  if ¬ s.authorized then
    some (.error .authentication)
  else
    match (params.getD 0 .other).asStr with
    | none => some (.error .protocol)
    | some worker_name =>
      match (params.getD 1 .other).asStr with
      | none => some (.error .protocol)
      | some job_id =>
        match ((params.getD 2 .other).asStr).bind hexDecode with
        | none => some (.error .protocol)
        | some extra_nonce2 =>
          match ((params.getD 3 .other).asStr).bind (parseHexNat · (2 ^ 32)) with
          | none => some (.error .protocol)
          | some time_value =>
            match ((params.getD 4 .other).asStr).bind (parseHexNat · (2 ^ 64)) with
            | none => some (.error .protocol)
            | some nonce_value =>
              let submission : WorkSubmission :=
                { worker_name := worker_name, job_id := job_id,
                  nonce := nonce_value, extra_nonce2 := extra_nonce2,
                  time := time_value }
              match process_submission keccak verify jobs submission with
              | none => none
              | some res =>
                let result := match res with
                  | .ok valid => valid
                  | .error _ => false
                let s1 := match res with
                  | .ok true => { s with shares_accepted := s.shares_accepted + 1 }
                  | .ok false => { s with shares_rejected := s.shares_rejected + 1 }
                  | .error _ => s
                some (.ok ({ result := some result,
                             error := if result then none else some (21, "Share rejected") },
                           s1))

/-! ## Concrete instances used by counterexamples and witnesses -/

/-- Distinct 32-byte hashes. -/
def hashA : Hash := 1 :: List.replicate 31 0

def hashB : Hash := 2 :: List.replicate 31 0

def hashC : Hash := 3 :: List.replicate 31 0

def hashD : Hash := 4 :: List.replicate 31 0

/-- A structurally valid coinbase input (all-zero txid, vout `0xffffffff`). -/
def cbInput : TransactionInput :=
  { prev_txid := zeroHash, prev_vout := 0xffffffff, script_sig := [], sequence := 0xffffffff }

/-- An all-zero block header. -/
def hdrZero : BlockHeader :=
  { version := 0, prev_block_hash := zeroHash, merkle_root := zeroHash,
    timestamp := 0, bits := 0, nonce := 0, height := 0 }

/-- A concrete stand-in hash function (constant 32 zero bytes). -/
def keccakZ : List Nat → List Nat := fun _ => List.replicate 32 0

/-- A verifier that reports every share valid. -/
def verifyTrue : BlockHeader → Nat → List Nat → Except MiningError Bool :=
  fun _ _ _ => .ok true

/- C2: a pre-state with one spendable outpoint and a block that spends it. -/

def c2PrevEntry : utxo_impl.UTXOEntry :=
  { tx_hash := hashA, output_index := 0, value := 100, script_pubkey := [0x76],
    height := 0, is_coinbase := false }

def c2PreState : utxo_impl.UTXOMap := [((hashA, 0), c2PrevEntry)]

def c2Coinbase : Transaction :=
  { version := 1, inputs := [cbInput],
    outputs := [{ value := 50, script_pubkey := [] }], lock_time := 0, txid := hashB }

def c2Spend : Transaction :=
  { version := 1,
    inputs := [{ prev_txid := hashA, prev_vout := 0, script_sig := [], sequence := 0 }],
    outputs := [{ value := 100, script_pubkey := [] }], lock_time := 0, txid := hashC }

def c2Block : Block :=
  { header := hdrZero, transactions := [c2Coinbase, c2Spend], height := some 1 }

/- C3: a pre-state and a block whose two non-coinbase transactions consume
the same outpoint. -/

def c3PrevEntry : utxo_rs.UTXOEntry :=
  { txid := hashA, vout := 0, value := 100, script_pubkey := [0x76],
    height := 0, is_coinbase := false }

def c3PreState : utxo_rs.UTXOMap := [((hashA, 0), c3PrevEntry)]

def c3Coinbase : Transaction :=
  { version := 1, inputs := [cbInput],
    outputs := [{ value := 50, script_pubkey := [] }], lock_time := 0, txid := hashB }

def c3Tx1 : Transaction :=
  { version := 1,
    inputs := [{ prev_txid := hashA, prev_vout := 0, script_sig := [], sequence := 0 }],
    outputs := [{ value := 60, script_pubkey := [] }], lock_time := 0, txid := hashC }

def c3Tx2 : Transaction :=
  { version := 1,
    inputs := [{ prev_txid := hashA, prev_vout := 0, script_sig := [], sequence := 0 }],
    outputs := [{ value := 40, script_pubkey := [] }], lock_time := 0, txid := hashD }

/-- The state after the coinbase of the C3 block is processed. -/
def c3State1 : utxo_rs.UTXOMap :=
  [((hashB, 0), { txid := hashB, vout := 0, value := 50, script_pubkey := [],
                  height := 1, is_coinbase := true }),
   ((hashA, 0), c3PrevEntry)]

/-- The state after the coinbase and the first spender are processed. -/
def c3State2 : utxo_rs.UTXOMap :=
  [((hashC, 0), { txid := hashC, vout := 0, value := 60, script_pubkey := [],
                  height := 1, is_coinbase := false }),
   ((hashB, 0), { txid := hashB, vout := 0, value := 50, script_pubkey := [],
                  height := 1, is_coinbase := true })]

/- C6: a block whose coinbase output values sum to 2^64 (wrapping to 0). -/

def c6Coinbase : Transaction :=
  { version := 1, inputs := [cbInput],
    outputs := [{ value := 2 ^ 63, script_pubkey := [] },
                { value := 2 ^ 63, script_pubkey := [] }],
    lock_time := 0, txid := hashB }

def c6Block : Block :=
  { header := hdrZero, transactions := [c6Coinbase], height := none }

/-- A well-behaved block for the C6 witness: one coinbase paying exactly the
height-0 subsidy. -/
def c6GoodCoinbase : Transaction :=
  { version := 1, inputs := [cbInput],
    outputs := [{ value := 50000000000, script_pubkey := [] }],
    lock_time := 0, txid := hashB }

def c6GoodBlock : Block :=
  { header := hdrZero, transactions := [c6GoodCoinbase], height := none }

/- C9 / C10: a job map in which job "a" has been superseded by the later
clean job "b", a session, and a well-formed submit for job "a". -/

def c9JobA : MiningJob :=
  { id := "a", prev_hash := zeroHash, coinbase_tx := List.replicate 117 0,
    merkle_branches := [], version := 1, bits := 0x207fffff, time := 100,
    clean_job := true, height := 1, target := List.replicate 32 255 }

def c9JobB : MiningJob :=
  { id := "b", prev_hash := hashA, coinbase_tx := List.replicate 117 0,
    merkle_branches := [], version := 1, bits := 0x207fffff, time := 200,
    clean_job := true, height := 2, target := List.replicate 32 255 }

/-- Job map after "b" (clean) is inserted on top of a map holding "a". -/
def c9Jobs : JobMap := jobInsert [("a", c9JobA)] "b" c9JobB

/-- An authorized session with zeroed share counters. -/
def c9Session : SessionState :=
  { worker_name := "w", worker_password := none, subscription_id := "sub",
    extra_nonce1 := "ab", extra_nonce2_size := 4, authorized := true,
    shares_accepted := 0, shares_rejected := 0 }

/-- A session that subscribed but never authorized. -/
def c10Session : SessionState :=
  { worker_name := "", worker_password := none, subscription_id := "sub",
    extra_nonce1 := "ab", extra_nonce2_size := 4, authorized := false,
    shares_accepted := 0, shares_rejected := 0 }

/-- Well-formed `mining.submit` parameters referencing job "a". -/
def c9Params : List JVal :=
  [.str "w", .str "a", .str "00000000", .str "00000064", .str "0000000000000001"]

/-! ## Helper lemmas -/

theorem writeRange_length_eq {b src b2 : List Nat} {s e : Nat}
    (h : writeRange b s e src = some b2) : b2.length = b.length := by
  unfold writeRange at h
  split at h
  · rename_i hc
    obtain ⟨h1, h2, h3⟩ := hc
    simp only [Option.some.injEq] at h
    subst h
    simp only [List.length_append, List.length_take, List.length_drop]
    omega
  · simp at h

theorem writeRange_none_of_length_lt {b src : List Nat} {s e : Nat}
    (h : b.length < e) : writeRange b s e src = none := by
  unfold writeRange
  rw [if_neg]
  rintro ⟨-, h2, -⟩
  omega

theorem beVal_lt_of_bytes {l : List Nat} (h : ∀ x ∈ l, x < 256) :
    beVal l < 256 ^ l.length := by
  induction l with
  | nil => simp [beVal]
  | cons a as ih =>
    simp only [beVal, List.length_cons, pow_succ]
    have ha : a < 256 := h a (List.mem_cons_self a as)
    have hih := ih (fun x hx => h x (List.mem_cons_of_mem _ hx))
    calc a * 256 ^ as.length + beVal as
        < (a + 1) * 256 ^ as.length := by nlinarith [hih]
      _ ≤ 256 * 256 ^ as.length := Nat.mul_le_mul_right _ (by omega)
      _ = 256 ^ as.length * 256 := by ring

/-- Lexicographic comparison of equal-length byte lists agrees with the
comparison of their big-endian values. -/
theorem bytesLe_iff_beVal (a : List Nat) : ∀ (b : List Nat), a.length = b.length →
    (∀ x ∈ a, x < 256) → (∀ x ∈ b, x < 256) →
    (bytesLe a b = true ↔ beVal a ≤ beVal b) := by
  induction a with
  | nil =>
    intro b hl _ _
    cases b with
    | nil => simp [bytesLe, beVal]
    | cons b bs => simp at hl
  | cons a as ih =>
    intro b hl ha hb
    cases b with
    | nil => simp at hl
    | cons b bs =>
      simp only [List.length_cons] at hl
      have hlen : as.length = bs.length := by omega
      have hva := beVal_lt_of_bytes (l := as) (fun x hx => ha x (List.mem_cons_of_mem _ hx))
      have hvb := beVal_lt_of_bytes (l := bs) (fun x hx => hb x (List.mem_cons_of_mem _ hx))
      simp only [bytesLe, beVal, hlen]
      rcases Nat.lt_trichotomy a b with h1 | h1 | h1
      · rw [if_pos h1]
        simp only [true_iff]
        have step : (a + 1) * 256 ^ bs.length ≤ b * 256 ^ bs.length :=
          Nat.mul_le_mul_right _ (by omega)
        rw [hlen] at hva
        nlinarith [hva, hvb, step]
      · subst h1
        rw [if_neg (lt_irrefl a), if_neg (lt_irrefl a)]
        rw [ih bs hlen (fun x hx => ha x (List.mem_cons_of_mem _ hx))
              (fun x hx => hb x (List.mem_cons_of_mem _ hx))]
        omega
      · rw [if_neg (by omega), if_pos h1]
        constructor
        · intro hfalse; cases hfalse
        · intro hle
          exfalso
          have step : (b + 1) * 256 ^ bs.length ≤ a * 256 ^ bs.length :=
            Nat.mul_le_mul_right _ (by omega)
          rw [hlen] at hva
          nlinarith [hva, hvb, step]

/-- On a 32-byte list, `hash_to_u256` is byte reversal. -/
theorem hash_to_u256_eq_reverse {h : List Nat} (hl : h.length = 32) :
    hash_to_u256 h = h.reverse := by
  apply List.ext_getElem
  · simp [hash_to_u256, hl]
  · intro i hi1 hi2
    simp only [hash_to_u256, List.getElem_map, List.getElem_range, List.getElem_reverse]
    rw [List.getD_eq_getElem]
    · congr 1
      simp only [hash_to_u256, List.length_map, List.length_range] at hi1
      omega
    · omega

theorem foldl_wrap_eq (l : List TransactionOutput) :
    ∀ acc, l.foldl (fun a o => (a + o.value) % 2 ^ 64) (acc % 2 ^ 64)
      = (l.foldl (fun a o => a + o.value) acc) % 2 ^ 64 := by
  induction l with
  | nil => intro acc; simp
  | cons o os ih =>
    intro acc
    simp only [List.foldl_cons]
    rw [Nat.mod_add_mod]
    exact ih (acc + o.value)

/-- The wrapping coinbase summation is the exact sum reduced mod `2^64`. -/
theorem sumOutputsWrapped_eq (l : List TransactionOutput) :
    sumOutputsWrapped l = sumOutputsExact l % 2 ^ 64 := by
  have := foldl_wrap_eq l 0
  simpa [sumOutputsWrapped, sumOutputsExact] using this

/-- A block accepted by `validate_block` passed the coinbase checks. -/
theorem validate_block_ok_checkCoinbase
    (powCheck : BlockHeader → Option (Except ConsensusError Unit))
    (params : ConsensusParams) (block : Block) (prev : Option BlockHeader)
    (hacc : validate_block powCheck params block prev = some (.ok ())) :
    checkCoinbase params block.header.height block.transactions = some (.ok ()) := by
  unfold validate_block at hacc
  cases prev with
  | none =>
    cases hp : powCheck block.header with
    | none => rw [hp] at hacc; cases hacc
    | some pr =>
      simp only [hp, Option.bind_eq_bind', Option.some_bind'] at hacc
      cases pr with
      | error e => simp at hacc
      | ok u => cases u; simpa using hacc
  | some ph =>
    cases hp : powCheck block.header with
    | none => rw [hp] at hacc; cases hacc
    | some pr =>
      simp only [hp, Option.bind_eq_bind', Option.some_bind'] at hacc
      cases pr with
      | error e => simp at hacc
      | ok u =>
        cases u
        dsimp only at hacc
        cases hd : validate_difficulty params block.header ph with
        | none => rw [hd] at hacc; cases hacc
        | some dres =>
          simp only [hd, Option.bind_eq_bind', Option.some_bind'] at hacc
          cases dres with
          | error e => simp at hacc
          | ok u2 => cases u2; exact hacc

/-- If the coinbase checks pass and the exact output sum does not overflow
`u64`, the exact sum is bounded by the subsidy. -/
theorem checkCoinbase_bound (params : ConsensusParams) (height : Nat)
    (cb : Transaction) (tl : List Transaction)
    (hnov : sumOutputsExact cb.outputs < 2 ^ 64)
    (hok : checkCoinbase params height (cb :: tl) = some (.ok ())) :
    sumOutputsExact cb.outputs ≤ (params.get_block_subsidy height).getD 0 := by
  unfold checkCoinbase at hok
  dsimp only at hok
  by_cases hcb : cb.is_coinbase
  · simp only [hcb, not_true_eq_false, if_false] at hok
    cases hs : params.get_block_subsidy height with
    | none => rw [hs] at hok; cases hok
    | some subsidy =>
      simp only [hs, Option.bind_eq_bind', Option.some_bind'] at hok
      rw [Option.getD_some]
      split at hok
      · cases hok
      · rename_i hgt
        have hw := sumOutputsWrapped_eq cb.outputs
        rw [Nat.mod_eq_of_lt hnov] at hw
        omega
  · simp only [Bool.not_eq_true] at hcb
    simp only [hcb, not_false_eq_true, if_true] at hok
    cases hok

theorem jobLookup_cons (k : String) (v : MiningJob) (rest : JobMap) (id : String) :
    jobLookup ((k, v) :: rest) id = if k = id then some v else jobLookup rest id := rfl

theorem jobLookup_jobErase_ne (jobs : JobMap) (idA idB : String) (hne : idA ≠ idB) :
    jobLookup (jobErase jobs idB) idA = jobLookup jobs idA := by
  induction jobs with
  | nil => rfl
  | cons kv rest ih =>
    obtain ⟨k, v⟩ := kv
    unfold jobErase
    by_cases hk : k = idB
    · rw [if_pos hk, ih, jobLookup_cons,
        if_neg (by rw [hk]; exact fun h => hne h.symm)]
    · rw [if_neg hk, jobLookup_cons, jobLookup_cons]
      by_cases hka : k = idA
      · rw [if_pos hka, if_pos hka]
      · rw [if_neg hka, if_neg hka, ih]

/-- Inserting a job under a different id leaves a lookup unchanged: creating
a new (clean) job does not remove or invalidate older jobs. -/
theorem jobLookup_insert_ne (jobs : JobMap) (idA idB : String) (jobB : MiningJob)
    (hne : idA ≠ idB) :
    jobLookup (jobInsert jobs idB jobB) idA = jobLookup jobs idA := by
  unfold jobInsert
  rw [jobLookup_cons, if_neg (fun h => hne h.symm)]
  exact jobLookup_jobErase_ne jobs idA idB hne

/-- Unfolding equation for the `while` loop of `get_bits_for_difficulty`. -/
theorem compactExponent_eq (s : Nat) :
    compactExponent s = if s > 0x00ffffff then 1 + compactExponent (s >>> 8) else 0 := by
  rw [compactExponent]
  simp

/-! ## Claim C1 -/

/-- C1: `KawpowContext::compute_hash` panics on every input, for every hash
function, light cache, parameter set, header, nonce and height: the nonce
write targets bytes `76..84` of the 80-byte header buffer, which is out of
bounds; `verify_kawpow` performs the same write and panics on every input as
well.  The two closed conjuncts witness the out-of-bounds reads the claim
describes inside `fnv_hash_merge`: merging into a 32-byte buffer reads
`out[29..33]`, and merging from a 32-byte input reads `input[29..33]`, both
out of bounds. -/
theorem kawpow_compute_and_verify_panic_on_every_input
    (keccak : List Nat → List Nat) (cache : List Nat) (params : KawpowParams)
    (header : BlockHeader) (nonce height : Nat) (prev_hash mix_hash : Hash) :
    compute_hash keccak cache params header nonce height = none
    ∧ verify_kawpow keccak cache params prev_hash height nonce mix_hash = none
    ∧ fnv_hash_merge (List.replicate 32 0) (List.replicate 64 0) 0 = none
    ∧ fnv_hash_merge (List.replicate 64 0) (List.replicate 32 0) 0 = none := by
  refine ⟨?_, ?_, by decide, by decide⟩
  · unfold compute_hash
    split
    · rfl
    · cases h1 : writeRange (List.replicate 80 0) 0 4 (u32LEBytes (header.version % 2 ^ 32)) with
      | none => simp only [h1, Option.bind_eq_bind', Option.none_bind']
      | some b1 =>
        have l1 : b1.length = 80 := by simpa using writeRange_length_eq h1
        simp only [h1, Option.bind_eq_bind', Option.some_bind']
        cases h2 : writeRange b1 4 36 header.prev_block_hash with
        | none => simp only [h2, Option.none_bind']
        | some b2 =>
          have l2 : b2.length = 80 := by rw [writeRange_length_eq h2, l1]
          simp only [h2, Option.some_bind']
          cases h3 : writeRange b2 36 68 header.merkle_root with
          | none => simp only [h3, Option.none_bind']
          | some b3 =>
            have l3 : b3.length = 80 := by rw [writeRange_length_eq h3, l2]
            simp only [h3, Option.some_bind']
            cases h4 : writeRange b3 68 72 (u32LEBytes (header.timestamp % 2 ^ 32)) with
            | none => simp only [h4, Option.none_bind']
            | some b4 =>
              have l4 : b4.length = 80 := by rw [writeRange_length_eq h4, l3]
              simp only [h4, Option.some_bind']
              cases h5 : writeRange b4 72 76 (u32LEBytes (header.bits % 2 ^ 32)) with
              | none => simp only [h5, Option.none_bind']
              | some b5 =>
                have l5 : b5.length = 80 := by rw [writeRange_length_eq h5, l4]
                simp only [h5, Option.some_bind']
                rw [writeRange_none_of_length_lt (by omega)]
                rfl
  · unfold verify_kawpow
    split
    · rfl
    · cases h1 : writeRange (List.replicate 80 0) 4 36 prev_hash with
      | none => simp only [h1, Option.bind_eq_bind', Option.none_bind']
      | some b1 =>
        have l1 : b1.length = 80 := by simpa using writeRange_length_eq h1
        simp only [h1, Option.bind_eq_bind', Option.some_bind']
        rw [writeRange_none_of_length_lt (by omega)]
        rfl

/-! ## Claim C2 -/

/-- C2: `revert_block` immediately after a successful `apply_block` does NOT
restore the pre-state.  For the concrete pre-state holding outpoint
`(hashA, 0)` and a block whose second transaction spends it, `apply_block`
succeeds, yet after `revert_block` the spent outpoint is gone: the
re-insertion of spent inputs is an empty placeholder in the source (there is
no undo journal), so `revert(apply(S, B), B) ≠ S`. -/
theorem revert_block_after_apply_loses_spent_input :
    (utxo_impl.apply_block c2PreState c2Block).map
        (fun m => mapLookup (utxo_impl.revert_block m c2Block) (hashA, 0)) = .ok none
    ∧ mapLookup c2PreState (hashA, 0) = some c2PrevEntry := by decide

/-! ## Claim C3 -/

/-- C3 counterexample: a block whose two non-coinbase transactions consume
the same outpoint is rejected, but the UTXO set after the failed call does
NOT equal the set before it: the spent outpoint `(hashA, 0)` is gone from
the returned state (and the error is `NotFound`, not `DoubleSpend`). -/
theorem process_block_double_spend_not_rolled_back :
    (utxo_rs.process_block c3PreState [c3Coinbase, c3Tx1, c3Tx2] 1).mapError
        (fun p => (p.1, mapLookup p.2 (hashA, 0)))
      = .error (.notFound, none)
    ∧ mapLookup c3PreState (hashA, 0) = some c3PrevEntry := by decide

/-- C3 (amended): `process_block` is not atomic.  If the coinbase and the
first spender succeed (producing `S1` then `S2`) and a later transaction
fails because its first input's outpoint `p` is no longer present, the call
returns `NotFound` together with the partially-mutated state `S2`, in which
the earlier removals and insertions persist — a state that differs from the
pre-state at `p`. -/
theorem process_block_failure_leaves_partial_state
    (S S1 S2 : utxo_rs.UTXOMap)
    (cb t1 t2 : Transaction) (p : Outpoint) (e : utxo_rs.UTXOEntry)
    (inp2 : TransactionInput) (rest : List TransactionInput) (height : Nat)
    (hSp : mapLookup S p = some e)
    (h1 : utxo_rs.process_transaction S cb height true = .ok S1)
    (h2 : utxo_rs.process_transaction S1 t1 height false = .ok S2)
    (ht2 : t2.inputs = inp2 :: rest)
    (hkey : (inp2.prev_txid, inp2.prev_vout) = p)
    (hS2p : mapLookup S2 p = none) :
    utxo_rs.process_block S [cb, t1, t2] height = .error (.notFound, S2)
    ∧ mapLookup S2 p ≠ mapLookup S p := by
  constructor
  · unfold utxo_rs.process_block
    dsimp only [List.drop]
    simp only [h1]
    show utxo_rs.processRest height S1 [t1, t2] = _
    unfold utxo_rs.processRest
    simp only [h2]
    show utxo_rs.processRest height S2 [t2] = _
    unfold utxo_rs.processRest
    have hp2 : utxo_rs.process_transaction S2 t2 height false = .error (.notFound, S2) := by
      unfold utxo_rs.process_transaction
      rw [ht2]
      unfold utxo_rs.spendInputs
      rw [hkey]
      unfold utxo_rs.remove
      rw [hS2p]
      rfl
    simp only [hp2]
    rfl
  · rw [hS2p, hSp]
    simp

/-- Witness for `process_block_failure_leaves_partial_state` at the concrete
double-spend block. -/
theorem process_block_failure_leaves_partial_state_witness :
    mapLookup c3PreState (hashA, 0) = some c3PrevEntry
    ∧ utxo_rs.process_transaction c3PreState c3Coinbase 1 true = .ok c3State1
    ∧ utxo_rs.process_transaction c3State1 c3Tx1 1 false = .ok c3State2
    ∧ mapLookup c3State2 (hashA, 0) = none
    ∧ (utxo_rs.process_block c3PreState [c3Coinbase, c3Tx1, c3Tx2] 1
        = .error (.notFound, c3State2)
      ∧ mapLookup c3State2 (hashA, 0) ≠ mapLookup c3PreState (hashA, 0)) :=
  ⟨by decide, by decide, by decide, by decide,
    process_block_failure_leaves_partial_state c3PreState c3State1 c3State2
      c3Coinbase c3Tx1 c3Tx2 (hashA, 0) c3PrevEntry
      { prev_txid := hashA, prev_vout := 0, script_sig := [], sequence := 0 } [] 1
      (by decide) (by decide) (by decide) (by decide) (by decide) (by decide)⟩

/-! ## Claim C4 -/

/-- C4: verification never succeeds on the mix reported by the hashing
function — both functions panic before producing anything.  At the concrete
input below (a constant hash function, empty cache, regtest parameters),
`compute_hash` reports no mix at all and `verify_kawpow` panics for every
claimed mix, so the claimed equivalence fails: there is no input on which
`verify` after `pow` succeeds. -/
theorem verify_kawpow_never_accepts_reported_mix :
    compute_hash keccakZ [] KawpowParams.regtest hdrZero 1 0 = none
    ∧ verify_kawpow keccakZ [] KawpowParams.regtest zeroHash 0 1 zeroHash = none
    ∧ verify_kawpow keccakZ [] KawpowParams.regtest hashA 1 2 hashB = none := by decide

/-! ## Claim C5 -/

/-- C5 counterexample: the acceptance comparison is NOT a comparison of the
hash as a big-endian integer with no reordering.  For `bits = 0x20000001`
(exponent 32, mantissa 1 — high bit clear) the decoded target is
`0x000001·256^29`; the hash `0x02·256^31` exceeds it as a big-endian
integer, yet the code's comparison (`hash_to_u256` reverses the bytes)
accepts it. -/
theorem validate_pow_comparison_reorders_hash_bytes :
    hash_meets_target (2 :: List.replicate 31 0) ((bits_to_target 0x20000001).getD []) = true
    ∧ beVal ((bits_to_target 0x20000001).getD []) < beVal (2 :: List.replicate 31 0) := by
  decide

/-- C5 (amended): for every 32-byte hash and 32-byte target (byte values
below 256), the proof-of-work acceptance comparison of `validate_pow` holds
iff the hash with its bytes REVERSED, interpreted as a 256-bit big-endian
unsigned integer, is at most the target — `hash_to_u256` reverses the hash
before the lexicographic byte comparison. -/
theorem hash_meets_target_iff_reversed_be_le (hash target : List Nat)
    (hl : hash.length = 32) (tl : target.length = 32)
    (hb : ∀ x ∈ hash, x < 256) (tb : ∀ x ∈ target, x < 256) :
    (hash_meets_target hash target = true ↔ beVal hash.reverse ≤ beVal target) := by
  unfold hash_meets_target
  rw [hash_to_u256_eq_reverse hl]
  exact bytesLe_iff_beVal _ _ (by simp [hl, tl])
    (fun x hx => hb x (List.mem_reverse.mp hx)) tb

/-- Witness for `hash_meets_target_iff_reversed_be_le` at concrete 32-byte
values. -/
theorem hash_meets_target_iff_reversed_be_le_witness :
    (2 :: List.replicate 31 0).length = 32
    ∧ (List.replicate 32 255 : List Nat).length = 32
    ∧ (∀ x ∈ (2 :: List.replicate 31 0), x < 256)
    ∧ (∀ x ∈ (List.replicate 32 255 : List Nat), x < 256)
    ∧ (hash_meets_target (2 :: List.replicate 31 0) (List.replicate 32 255) = true
        ↔ beVal (2 :: List.replicate 31 0).reverse ≤ beVal (List.replicate 32 255)) :=
  ⟨by decide, by decide, by decide, by decide,
    hash_meets_target_iff_reversed_be_le (2 :: List.replicate 31 0)
      (List.replicate 32 255) (by decide) (by decide) (by decide) (by decide)⟩

/-! ## Claim C6 -/

/-- C6 counterexample: a coinbase whose two outputs are each `2^63` sums to
`2^64`, which wraps to 0 in the `u64` accumulation, so `validate_block`
accepts the block (with a proof-of-work check that passes) although the
exact output sum vastly exceeds `subsidy(0) + Σ fees = 50_000_000_000 + 0`. -/
theorem validate_block_accepts_wrapping_coinbase_sum :
    validate_block (fun _ => some (.ok ())) ConsensusParams.mainnet c6Block none
      = some (.ok ())
    ∧ ConsensusParams.mainnet.get_block_subsidy 0 = some 50000000000
    ∧ ¬ (sumOutputsExact c6Coinbase.outputs ≤ 50000000000 + 0) := by decide

/-- C6 (amended): for every accepted block whose coinbase output sum does
not overflow `u64`, the exact sum of the coinbase outputs is at most the
block subsidy at the header height (the code adds `total_fees = 0`, and any
non-negative fee sum only weakens the bound).  Overflowing sums wrap, as the
counterexample shows. -/
theorem validate_block_coinbase_bounded_by_subsidy
    (powCheck : BlockHeader → Option (Except ConsensusError Unit))
    (params : ConsensusParams) (block : Block) (prev : Option BlockHeader)
    (cb : Transaction) (tl : List Transaction)
    (hblk : block.transactions = cb :: tl)
    (hnov : sumOutputsExact cb.outputs < 2 ^ 64)
    (hacc : validate_block powCheck params block prev = some (.ok ())) :
    sumOutputsExact cb.outputs ≤ (params.get_block_subsidy block.header.height).getD 0 := by
  have h := validate_block_ok_checkCoinbase powCheck params block prev hacc
  rw [hblk] at h
  exact checkCoinbase_bound params block.header.height cb tl hnov h

/-- Witness for `validate_block_coinbase_bounded_by_subsidy` at a block
paying exactly the height-0 subsidy. -/
theorem validate_block_coinbase_bounded_by_subsidy_witness :
    c6GoodBlock.transactions = c6GoodCoinbase :: []
    ∧ sumOutputsExact c6GoodCoinbase.outputs < 2 ^ 64
    ∧ validate_block (fun _ => some (.ok ())) ConsensusParams.mainnet c6GoodBlock none
        = some (.ok ())
    ∧ sumOutputsExact c6GoodCoinbase.outputs
        ≤ (ConsensusParams.mainnet.get_block_subsidy c6GoodBlock.header.height).getD 0 :=
  ⟨by decide, by decide, by decide,
    validate_block_coinbase_bounded_by_subsidy (fun _ => some (.ok ()))
      ConsensusParams.mainnet c6GoodBlock none c6GoodCoinbase []
      (by decide) (by decide) (by decide)⟩

/-! ## Claim C7 -/

/-- C7: for every parameter set with a positive halving interval and every
height, the block subsidy equals `initial_subsidy >> (h / interval)` when
`h / interval < 64` and 0 otherwise; it is monotone non-increasing in the
height and identically zero from `64 · interval` on; the mining job
manager's `calculate_block_reward` hard-wires the mainnet constants and
agrees with the consensus engine's computation for the mainnet and testnet
parameter sets at every height (regtest uses a different interval). -/
theorem block_subsidy_formula_monotone_and_agree (p : ConsensusParams)
    (h h1 h2 : Nat) (hI : 0 < p.subsidy_halving_interval) :
    (p.get_block_subsidy h =
      some (if h / p.subsidy_halving_interval < 64
            then p.initial_block_subsidy >>> (h / p.subsidy_halving_interval) else 0))
    ∧ (∀ s1 s2, h1 ≤ h2 → p.get_block_subsidy h1 = some s1 →
         p.get_block_subsidy h2 = some s2 → s2 ≤ s1)
    ∧ (64 * p.subsidy_halving_interval ≤ h → p.get_block_subsidy h = some 0)
    ∧ (ConsensusParams.mainnet.get_block_subsidy h = some (calculate_block_reward h))
    ∧ (ConsensusParams.testnet.get_block_subsidy h = some (calculate_block_reward h)) := by
  refine ⟨?_, ?_, ?_, ?_, ?_⟩
  · unfold ConsensusParams.get_block_subsidy
    rw [if_neg (by omega)]
    by_cases hc : h / p.subsidy_halving_interval ≥ 64
    · rw [if_pos hc, if_neg (by omega)]
    · rw [if_neg hc, if_pos (by omega)]
  · intro s1 s2 hle e1 e2
    unfold ConsensusParams.get_block_subsidy at e1 e2
    rw [if_neg (by omega)] at e1 e2
    have hk : h1 / p.subsidy_halving_interval ≤ h2 / p.subsidy_halving_interval :=
      Nat.div_le_div_right hle
    by_cases hc2 : h2 / p.subsidy_halving_interval ≥ 64
    · rw [if_pos hc2] at e2
      cases e2
      omega
    · rw [if_neg hc2] at e2
      rw [if_neg (by omega)] at e1
      cases e1; cases e2
      simp only [Nat.shiftRight_eq_div_pow]
      exact Nat.div_le_div_left (Nat.pow_le_pow_right (by norm_num) hk)
        (Nat.pos_pow_of_pos _ (by norm_num))
  · intro hge
    unfold ConsensusParams.get_block_subsidy
    rw [if_neg (by omega), if_pos]
    rw [ge_iff_le, Nat.le_div_iff_mul_le hI]
    omega
  · simp only [ConsensusParams.get_block_subsidy, ConsensusParams.mainnet,
      calculate_block_reward]
    norm_num
    split <;> rfl
  · simp only [ConsensusParams.get_block_subsidy, ConsensusParams.testnet,
      calculate_block_reward]
    norm_num
    split <;> rfl

/-- Witness for `block_subsidy_formula_monotone_and_agree` at the mainnet
parameters and height `64 · 2_100_000`. -/
theorem block_subsidy_formula_monotone_and_agree_witness :
    0 < ConsensusParams.mainnet.subsidy_halving_interval
    ∧ ((ConsensusParams.mainnet.get_block_subsidy 134400000 =
        some (if 134400000 / ConsensusParams.mainnet.subsidy_halving_interval < 64
              then ConsensusParams.mainnet.initial_block_subsidy >>>
                (134400000 / ConsensusParams.mainnet.subsidy_halving_interval) else 0))
      ∧ (∀ s1 s2, 0 ≤ 2100000 → ConsensusParams.mainnet.get_block_subsidy 0 = some s1 →
           ConsensusParams.mainnet.get_block_subsidy 2100000 = some s2 → s2 ≤ s1)
      ∧ (64 * ConsensusParams.mainnet.subsidy_halving_interval ≤ 134400000 →
           ConsensusParams.mainnet.get_block_subsidy 134400000 = some 0)
      ∧ (ConsensusParams.mainnet.get_block_subsidy 134400000
          = some (calculate_block_reward 134400000))
      ∧ (ConsensusParams.testnet.get_block_subsidy 134400000
          = some (calculate_block_reward 134400000))) :=
  ⟨by decide,
    block_subsidy_formula_monotone_and_agree ConsensusParams.mainnet
      134400000 0 2100000 (by decide)⟩

/-! ## Claim C8 -/

/-- C8: the decode–encode round trip on difficulty bits is NOT the identity
on valid inputs with `3 ≤ e ≤ 32`.  For `bits = 0x0400ffff` (exponent 4,
mantissa `0x00ffff`, high bit clear) the decode succeeds with `0xffff00`,
but re-encoding yields `0x03000000 ≠ 0x0400ffff` (the encoder left-shifts
the value by 24 bits and truncates to `u32`, destroying the mantissa).  For
the crate's own test input `0x1d00ffff` (exponent 29) the decode itself
panics: the `u32` shift amount `8·26 = 208` exceeds the bit width, so the
round trip asserted by `test_difficulty_conversion` cannot hold. -/
theorem difficulty_bits_roundtrip_not_identity :
    get_difficulty_for_bits 0x0400ffff = some 0xffff00
    ∧ get_bits_for_difficulty 0xffff00 = some 0x03000000
    ∧ (0x03000000 : Nat) ≠ 0x0400ffff
    ∧ get_difficulty_for_bits 0x1d00ffff = none := by
  have he : compactExponent 0xffff00 = 0 := by
    rw [compactExponent_eq]
    norm_num
  refine ⟨by decide, ?_, by decide, by decide⟩
  simp only [get_bits_for_difficulty, he]
  norm_num
  decide

/-! ## Claim C9 -/

/-- C9 counterexample: the session holds `job_A` ("a"); the job map also
contains the later clean job "b" (`c9Jobs` inserts it on top).  A submission
referencing "a" is NOT rejected with error 21 "stale share": it is processed
as a live share, the response reports success, and the session's
accepted-share counter increases from 0 to 1. -/
theorem superseded_job_share_accepted_not_stale :
    handle_submit keccakZ verifyTrue c9Jobs c9Session c9Params =
      some (.ok ({ result := some true, error := none },
                 { c9Session with shares_accepted := 1 })) := by decide

/-- C9 (amended): there is no staleness tracking.  After a later clean job
`jobB` is inserted, `job_A` is still in the job map, and a well-formed
submission referencing it is handled exactly as `process_submission`
dictates: the response carries the verification verdict and the accepted
(resp. rejected) counter is bumped accordingly — error 21 is only produced
for submissions with fewer than five parameters. -/
theorem submit_for_superseded_job_processed_normally
    (keccak : List Nat → List Nat)
    (verify : BlockHeader → Nat → List Nat → Except MiningError Bool)
    (jobs0 : JobMap) (jobA jobB : MiningJob) (idA idB : String) (s : SessionState)
    (w en2s tms nons : String) (en2 : List Nat) (tv nv : Nat) (valid : Bool)
    (hne : idA ≠ idB)
    (hclean : jobB.clean_job = true)
    (hA : jobLookup jobs0 idA = some jobA)
    (hen2 : hexDecode en2s = some en2)
    (htm : parseHexNat tms (2 ^ 32) = some tv)
    (hnon : parseHexNat nons (2 ^ 64) = some nv)
    (hps : process_submission keccak verify (jobInsert jobs0 idB jobB)
            { worker_name := w, job_id := idA, nonce := nv,
              extra_nonce2 := en2, time := tv } = some (.ok valid)) :
    jobLookup (jobInsert jobs0 idB jobB) idA = some jobA
    ∧ handle_submit keccak verify (jobInsert jobs0 idB jobB) s
        [.str w, .str idA, .str en2s, .str tms, .str nons]
      = some (.ok ({ result := some valid, error := none },
          if valid then { s with shares_accepted := s.shares_accepted + 1 }
          else { s with shares_rejected := s.shares_rejected + 1 })) := by
  constructor
  · rw [jobLookup_insert_ne jobs0 idA idB jobB hne, hA]
  · unfold handle_submit
    rw [if_neg (by simp)]
    dsimp only [List.getD, JVal.asStr, Option.getD_some, List.get?]
    rw [hen2, htm, hnon]
    dsimp only
    rw [hps]

/-- Witness for `submit_for_superseded_job_processed_normally` at the
concrete jobs, session and parameters. -/
theorem submit_for_superseded_job_processed_normally_witness :
    ("a" : String) ≠ "b"
    ∧ c9JobB.clean_job = true
    ∧ jobLookup [("a", c9JobA)] "a" = some c9JobA
    ∧ hexDecode "00000000" = some [0, 0, 0, 0]
    ∧ parseHexNat "00000064" (2 ^ 32) = some 100
    ∧ parseHexNat "0000000000000001" (2 ^ 64) = some 1
    ∧ process_submission keccakZ verifyTrue (jobInsert [("a", c9JobA)] "b" c9JobB)
        { worker_name := "w", job_id := "a", nonce := 1,
          extra_nonce2 := [0, 0, 0, 0], time := 100 } = some (.ok true)
    ∧ (jobLookup (jobInsert [("a", c9JobA)] "b" c9JobB) "a" = some c9JobA
      ∧ handle_submit keccakZ verifyTrue (jobInsert [("a", c9JobA)] "b" c9JobB) c9Session
          [.str "w", .str "a", .str "00000000", .str "00000064", .str "0000000000000001"]
        = some (.ok ({ result := some true, error := none },
            if true then { c9Session with shares_accepted := c9Session.shares_accepted + 1 }
            else { c9Session with shares_rejected := c9Session.shares_rejected + 1 }))) :=
  ⟨by decide, by decide, by decide, by decide, by decide, by decide, by decide,
    submit_for_superseded_job_processed_normally keccakZ verifyTrue
      [("a", c9JobA)] c9JobA c9JobB "a" "b" c9Session
      "w" "00000000" "00000064" "0000000000000001" [0, 0, 0, 0] 100 1 true
      (by decide) (by decide) (by decide) (by decide) (by decide) (by decide) (by decide)⟩

/-! ## Claim C10 -/

/-- C10 counterexample: a session that subscribed but never authorized
(`c10Session.authorized = false`) submits a well-formed share; the handler
cited by the claim performs no authorization check: the submission is
processed as a share, the response is a success result (not protocol error
25), and the accepted-share counter changes from 0 to 1. -/
theorem unauthorized_submit_share_processed :
    handle_submit keccakZ verifyTrue c9Jobs c10Session c9Params =
      some (.ok ({ result := some true, error := none },
                 { c10Session with shares_accepted := 1 })) := by decide

/-- C10 (amended): the submit handler at lines 552-611 ignores the
`authorized` flag entirely — its response and counter updates for any
session state are identical whatever the flag is set to; the duplicated
first handler (lines 304-374) rejects an unauthorized submit by returning
`Err(Authentication)` with no wire response (error code 25 appears nowhere)
and no state change. -/
theorem handle_submit_ignores_authorization (keccak : List Nat → List Nat)
    (verify : BlockHeader → Nat → List Nat → Except MiningError Bool)
    (jobs : JobMap) (params : List JVal) :
    (∀ (s : SessionState) (b : Bool),
      handle_submit keccak verify jobs { s with authorized := b } params
        = (handle_submit keccak verify jobs s params).map (Except.map
            (fun pr => (pr.1, { pr.2 with authorized := b }))))
    ∧ (∀ s : SessionState, s.authorized = false →
        handle_submit_v1 keccak verify jobs s params = some (.error .authentication)) := by
  constructor
  · intro s b
    unfold handle_submit
    by_cases h5 : params.length < 5
    · simp only [if_pos h5]
      rfl
    · simp only [if_neg h5]
      cases hed : hexDecode ((params.getD 2 JVal.other).asStr.getD "") with
      | none => rfl
      | some en2b =>
        dsimp only
        cases htm : parseHexNat ((params.getD 3 JVal.other).asStr.getD "") (2 ^ 32) with
        | none => rfl
        | some tv =>
          dsimp only
          cases hnn : parseHexNat ((params.getD 4 JVal.other).asStr.getD "") (2 ^ 64) with
          | none => rfl
          | some nv =>
            dsimp only
            cases hps : process_submission keccak verify jobs
                { worker_name := (params.getD 0 JVal.other).asStr.getD "",
                  job_id := (params.getD 1 JVal.other).asStr.getD "",
                  nonce := nv, extra_nonce2 := en2b, time := tv } with
            | none => rfl
            | some res =>
              cases res with
              | error e => rfl
              | ok valid => cases valid <;> rfl
  · intro s h
    unfold handle_submit_v1
    simp [h]

/-- Witness for `handle_submit_ignores_authorization`: the unauthorized
session gets `Err(Authentication)` from the first handler. -/
theorem handle_submit_ignores_authorization_witness :
    c10Session.authorized = false
    ∧ handle_submit_v1 keccakZ verifyTrue c9Jobs c10Session c9Params
        = some (.error .authentication) :=
  ⟨by decide,
    (handle_submit_ignores_authorization keccakZ verifyTrue c9Jobs c9Params).2
      c10Session (by decide)⟩

end Smelly
